import Mathlib

/-!
Verification of the unified `grep` command of the just-bash-openfs package
(`src/grep.ts`, exported by `createGrepCommand`).

The TypeScript source is shallowly embedded below.  JavaScript strings are
modelled by Lean `String`, JS arrays by `List`, thrown exceptions by
`Except String`, and `async` suspension points disappear (the code is
single-threaded and sequential).  The host regex engine (`RegExp`) is out of
scope of the repository (the spec's non-goal "implementing a regex engine from
scratch"); it is abstracted as an `ExecRegex` value: a `g`-flagged matcher
queried from an explicit start offset, bundled with the two facts the
JavaScript specification guarantees for `RegExp.prototype.exec` (a match is
found at or after `lastIndex`, and it lies inside the string).  Every other
definition is translated clause by clause from the source.
-/

namespace GrepSpec

/-- Embedding of the `GrepArgs` interface of `src/grep.ts` (parsed grep flags
and arguments).  `maxCount = 0` means unlimited, as in the source default. -/
structure GrepArgs where
  patterns : List String
  files : List String
  ignoreCase : Bool
  lineNumber : Bool
  invertMatch : Bool
  count : Bool
  filesWithMatches : Bool
  filesWithoutMatch : Bool
  recursive : Bool
  extendedRegexp : Bool
  fixedStrings : Bool
  wordRegexp : Bool
  onlyMatching : Bool
  noFilename : Bool
  quiet : Bool
  maxCount : Nat
  deriving Repr, DecidableEq

/-- The all-false default record built at the top of `parseGrepArgs`. -/
def GrepArgs.init : GrepArgs :=
  ⟨[], [], false, false, false, false, false, false, false, false, false,
    false, false, false, false, 0⟩

/-- Embedding of the `ExecResult` interface (result returned by `execute`). -/
structure ExecResult where
  stdout : String
  stderr : String
  exitCode : Nat
  deriving Repr, DecidableEq

/-- Embedding of the `MatchLine` interface: one reportable hit.
`matchText` is `some _` exactly when the JS field is not `undefined`. -/
structure MatchLine where
  file : String
  lineNumber : Nat
  line : String
  matchText : Option String
  deriving Repr, DecidableEq

/-- Embedding of the `GrepMatch` shape returned by the remote substrate
(`vfs.grep`): a path, a 1-based line number and the whole matching line. -/
structure GrepMatch where
  path : String
  line_number : Nat
  line : String
  deriving Repr, DecidableEq

/-- Decidable equality for `Except` results (needed to `decide` concrete
runs of the fallible embedded operations). -/
instance {e a : Type} [DecidableEq e] [DecidableEq a] : DecidableEq (Except e a) := fun x y =>
  match x, y with
  | .ok u, .ok v => decidable_of_iff (u = v) (by simp)
  | .error u, .error v => decidable_of_iff (u = v) (by simp)
  | .ok _, .error _ => isFalse (fun c => Except.noConfusion c)
  | .error _, .ok _ => isFalse (fun c => Except.noConfusion c)

/-- JavaScript `Array.prototype.join(sep)` on a list of strings. -/
def joinWith (sep : String) : List String → String
  | [] => ""
  | x :: xs => xs.foldl (fun acc s => acc ++ sep ++ s) x

/-- JavaScript `String.prototype.startsWith` (prefix test on the characters). -/
def strStartsWith (s pre : String) : Bool :=
  pre.toList.isPrefixOf s.toList

/-- JavaScript `String.prototype.endsWith` (suffix test on the characters). -/
def strEndsWith (s suf : String) : Bool :=
  suf.toList.isSuffixOf s.toList

/-- JavaScript `String.prototype.slice(n)` with a non-negative index:
drop the first `n` characters. -/
def strDrop (s : String) (n : Nat) : String :=
  String.mk (s.toList.drop n)

/-- Character count of a string (JS `String.prototype.length`). -/
def strLen (s : String) : Nat :=
  s.toList.length

/-- Accumulator of `content.split("\n")`: `cur` holds the (reversed) current
segment, segments are cut at every newline character. -/
def splitNlAux (cur : List Char) : List Char → List String
  | [] => [String.mk cur.reverse]
  | c :: rest =>
    if c = '\n' then String.mk cur.reverse :: splitNlAux [] rest
    else splitNlAux (c :: cur) rest

/-- JavaScript `content.split("\n")`: the list of newline-separated segments,
with leading/trailing empty segments included (`"".split` gives `[""]`). -/
def splitNl (s : String) : List String :=
  splitNlAux [] s.toList

/-- Embedding of the line-splitting step shared by `grepFile` and `grepStdin`:
split on `"\n"` and pop a single trailing empty element produced by a trailing
newline (`if (lines.length > 0 && lines[lines.length-1] === "") lines.pop()`). -/
def splitLines (content : String) : List String :=
  let lines := splitNl content
  match lines.getLast? with
  | some "" => lines.dropLast
  | _ => lines

/-- Decimal digit character, used to render JS numbers. -/
def digitChar : Nat → Char
  | 0 => '0' | 1 => '1' | 2 => '2' | 3 => '3' | 4 => '4'
  | 5 => '5' | 6 => '6' | 7 => '7' | 8 => '8' | _ => '9'

/-- Digit accumulation for `natToString`; the first argument is fuel
(`n` itself suffices since `n / 10 < n` for `n > 0`). -/
def natToCharsAux : Nat → Nat → List Char → List Char
  | 0, _, acc => acc
  | fuel + 1, n, acc =>
    if n = 0 then acc
    else natToCharsAux fuel (n / 10) (digitChar (n % 10) :: acc)

/-- Decimal rendering of a natural number, the embedding of JavaScript
number-to-string coercion in template literals (line numbers and counts). -/
def natToString (n : Nat) : String :=
  if n = 0 then "0" else String.mk (natToCharsAux n n [])

/-- Leading-digit-prefix value of a character list (helper for `jsParseInt`);
`none` when the list does not start with a digit (JS `NaN`). -/
def digitsPrefixVal (cs : List Char) : Option Nat :=
  let ds := cs.takeWhile (fun c => c.isDigit)
  if ds.isEmpty then none
  else some (ds.foldl (fun a c => a * 10 + (c.toNat - 48)) 0)

/-- Embedding of `Number.parseInt(s, 10)`: skip leading whitespace, accept an
optional sign, read the longest digit prefix; `none` is JS `NaN`. -/
def jsParseInt (s : String) : Option Int :=
  let cs := s.toList.dropWhile (fun c => c.isWhitespace)
  match cs with
  | '-' :: ds => (digitsPrefixVal ds).map (fun n => -(n : Int))
  | '+' :: ds => (digitsPrefixVal ds).map (fun n => (n : Int))
  | ds => (digitsPrefixVal ds).map (fun n => (n : Int))

-- ── Regex building (embedding of `escapeRegex`, `buildRegex`,
--    `buildServerPattern`) ─────────────────────────────────────────────

/-- The metacharacter set of the source's escaping regex
`/[.*+?^$\x7b\x7d()|[\]\\]/`. -/
def regexMetaChars : List Char :=
  ['.', '*', '+', '?', '^', '$', '\x7b', '\x7d', '(', ')', '|', '[', ']', '\\']

/-- Embedding of `escapeRegex`: prefix every regex metacharacter with a
backslash (`s.replace(/[...]/g, "\\$&")`). -/
def escapeRegex (s : String) : String :=
  String.mk (s.toList.foldr
    (fun c acc => if c ∈ regexMetaChars then '\\' :: c :: acc else c :: acc) [])

/-- The pattern-source string constructed by `buildRegex` before compilation:
escape all metacharacters first when `fixedStrings`, then wrap in
word-boundary anchors when `wordRegexp`.  (The `ignoreCase` flag is passed to
the engine separately, as the `i` regex flag.) -/
def buildRegexSrc (pattern : String) (opts : GrepArgs) : String :=
  let src := if opts.fixedStrings then escapeRegex pattern else pattern
  if opts.wordRegexp then "\\b" ++ src ++ "\\b" else src

/-- Embedding of `buildServerPattern`: the bare pattern string sent to the
remote substrate.  Note the early return: when `fixedStrings` is set the
function returns the escaped pattern immediately and the `wordRegexp` wrap is
never applied. -/
def buildServerPattern (pattern : String) (opts : GrepArgs) : String :=
  if opts.fixedStrings then escapeRegex pattern
  else if opts.wordRegexp then "\\b" ++ pattern ++ "\\b"
  else pattern

/-- Embedding of `isServerSideCompatible` (the capability gate): flags that
need per-match detail force full local evaluation. -/
def isServerSideCompatible (opts : GrepArgs) : Bool :=
  if opts.invertMatch then false
  else if opts.onlyMatching then false
  else true

-- ── The abstract host regex engine ───────────────────────────────────

/-- Abstraction of a compiled JavaScript `RegExp` with the `g` flag.
`execFrom line i` models setting `re.lastIndex = i` and calling
`re.exec(line)`: it returns the match index and the matched substring
(`m.index`, `m[0]`), or `none`.  The two laws are the guarantees of the
ECMAScript specification for global `exec`: the match starts at or after
`lastIndex` and ends within the string. -/
structure ExecRegex where
  execFrom : String → Nat → Option (Nat × String)
  le_start : ∀ line i j s, execFrom line i = some (j, s) → i ≤ j
  end_le : ∀ line i j s, execFrom line i = some (j, s) → j + strLen s ≤ strLen line

/-- First index at or after `j` where `pat` occurs in `hay` (scanning helper
for the literal-pattern regex instance). -/
def findIn (pat : List Char) : List Char → Nat → Option Nat
  | [], j => if pat.isPrefixOf ([] : List Char) then some j else none
  | c :: rest, j =>
    if pat.isPrefixOf (c :: rest) then some j else findIn pat rest (j + 1)

/-- Exec function of a literal (metacharacter-free) pattern: the first
occurrence of `pat` at or after offset `i`, or `none` past the end. -/
def litExecFrom (pat : String) (line : String) (i : Nat) : Option (Nat × String) :=
  if strLen line < i then none
  else
    match findIn pat.toList (line.toList.drop i) 0 with
    | some k => some (i + k, pat)
    | none => none

theorem findIn_bound (pat : List Char) :
    ∀ (hay : List Char) (j0 k : Nat), findIn pat hay j0 = some k →
      j0 ≤ k ∧ (k - j0) + pat.length ≤ hay.length := by
  intro hay
  induction hay with
  | nil =>
    intro j0 k h
    unfold findIn at h
    by_cases hp : pat.isPrefixOf ([] : List Char)
    · simp only [hp, if_true, Option.some.injEq] at h
      subst h
      have : pat.length ≤ ([] : List Char).length :=
        (List.isPrefixOf_iff_prefix.mp hp).length_le
      simpa using this
    · simp [hp] at h
  | cons c rest ih =>
    intro j0 k h
    unfold findIn at h
    by_cases hp : pat.isPrefixOf (c :: rest)
    · simp only [hp, if_true, Option.some.injEq] at h
      subst h
      have : pat.length ≤ (c :: rest).length :=
        (List.isPrefixOf_iff_prefix.mp hp).length_le
      constructor
      · exact Nat.le_refl _
      · simpa using this
    · simp only [hp, if_false] at h
      have := ih (j0 + 1) k h
      constructor
      · omega
      · simp only [List.length_cons]
        omega

/-- A literal pattern as an `ExecRegex` (used to instantiate the abstract
engine on concrete scenarios whose pattern has no metacharacters). -/
def litRegex (pat : String) : ExecRegex where
  execFrom := litExecFrom pat
  le_start := by
    intro line i j s h
    unfold litExecFrom at h
    by_cases hle : strLen line < i
    · simp [hle] at h
    · simp only [hle, if_false] at h
      split at h
      · simp only [Option.some.injEq, Prod.mk.injEq] at h
        omega
      · exact absurd h (by simp)
  end_le := by
    intro line i j s h
    unfold litExecFrom at h
    by_cases hle : strLen line < i
    · simp [hle] at h
    · simp only [hle, if_false] at h
      split at h
      · rename_i k hfi
        simp only [Option.some.injEq, Prod.mk.injEq] at h
        obtain ⟨hj, hs⟩ := h
        have hb := findIn_bound pat.toList (line.toList.drop i) 0 k hfi
        have hdrop : (line.toList.drop i).length = line.toList.length - i :=
          List.length_drop i line.toList
        subst hj hs
        simp only [strLen] at *
        omega
      · exact absurd h (by simp)

-- ── Per-line matching (embedding of the loop bodies of `grepFile` and
--    `grepStdin`, which are textually identical in the source) ─────────

/-- One step list of the `-o` re-matching loop
(`while ((m = re.exec(line)) !== null) ... if (m[0].length === 0) re.lastIndex++`).
The first argument is fuel for the unbounded `while`; `none` means the fuel
ran out before `exec` returned `null`. -/
def scanStep (re : ExecRegex) (line : String) : Nat → Nat → Option (List (Nat × String))
  | 0, _ => none
  | fuel + 1, pos =>
    match re.execFrom line pos with
    | none => some []
    | some (j, s) =>
      let next := if strLen s = 0 then j + 1 else j + strLen s
      match scanStep re line fuel next with
      | none => none
      | some rest => some ((j, s) :: rest)

/-- All non-overlapping matches of `re` in `line`, starting the scan cursor
at 0.  Fuel `strLen line + 2` is proven sufficient (`scanStep_isSome` /
claim C8), so the `getD` default is never taken. -/
def findAllMatches (re : ExecRegex) (line : String) : List (Nat × String) :=
  (scanStep re line (strLen line + 2) 0).getD []

/-- Embedding of the shared per-line body of `grepFile` and `grepStdin`:
reset `lastIndex`, test the line, apply `invertMatch`, and emit either one
record per `-o` occurrence or a single record for the line. -/
def lineRecords (re : ExecRegex) (opts : GrepArgs) (file : String)
    (ln : Nat) (line : String) : List MatchLine :=
  let m0 := re.execFrom line 0
  let hit := m0.isSome
  if (if opts.invertMatch then !hit else hit) then
    if opts.onlyMatching && m0.isSome then
      (findAllMatches re line).map (fun js => ⟨file, ln, line, some js.2⟩)
    else
      [⟨file, ln, line, m0.map (fun js => js.2)⟩]
  else []

/-- Embedding of the indexed `for` loop over the split lines; `i` is the
0-based index of the first line of `lines` in the file. -/
def collectMatches (re : ExecRegex) (opts : GrepArgs) (file : String) :
    Nat → List String → List MatchLine
  | _, [] => []
  | i, line :: rest =>
    lineRecords re opts file (i + 1) line ++ collectMatches re opts file (i + 1) rest

-- ── Convert server matches (embedding of `convertServerMatches`) ──────

/-- Embedding of `convertServerMatches` (the match list is the last argument
so that the recursion is on it): map VFS paths back under the mount, re-run
the local regex on the returned line and — only when `ignoreCase` is set —
drop hits the local regex does not confirm. -/
def convertServerMatches (mount : String) (re : ExecRegex) (opts : GrepArgs) :
    List GrepMatch → List MatchLine
  | [] => []
  | m :: rest =>
    let filePath := if m.path = "/" then mount else mount ++ m.path
    let mt := re.execFrom m.line 0
    if opts.ignoreCase && !mt.isSome then
      convertServerMatches mount re opts rest
    else
      ⟨filePath, m.line_number, m.line, mt.map (fun js => js.2)⟩ ::
        convertServerMatches mount re opts rest

-- ── Max count (embedding of `applyMaxCount`) ─────────────────────────

/-- Loop of `applyMaxCount` with the `counts` map represented as a function
(empty map ↦ the constant-0 function, matching `counts.get(key) ?? 0`). -/
def applyMaxCountAux (maxCount : Nat) : List MatchLine → (String → Nat) → List MatchLine
  | [], _ => []
  | m :: rest, counts =>
    let current := counts m.file
    if current < maxCount then
      m :: applyMaxCountAux maxCount rest
        (fun k => if k = m.file then current + 1 else counts k)
    else
      applyMaxCountAux maxCount rest counts

/-- Embedding of `applyMaxCount`: keep the first `maxCount` records of each
distinct file; `maxCount <= 0` keeps everything. -/
def applyMaxCount (ms : List MatchLine) (opts : GrepArgs) : List MatchLine :=
  if opts.maxCount = 0 then ms
  else applyMaxCountAux opts.maxCount ms (fun _ => 0)

-- ── Output formatting (embedding of `formatOutput`) ──────────────────

/-- Insertion-order deduplication, the embedding of
`new Set(matches.map(m => m.file))` iterated in insertion order. -/
def dedupKeepFirstAux (seen : List String) : List String → List String
  | [] => []
  | x :: xs =>
    if x ∈ seen then dedupKeepFirstAux seen xs
    else x :: dedupKeepFirstAux (x :: seen) xs

/-- Distinct elements of a list, first occurrences in order. -/
def dedupKeepFirst (l : List String) : List String :=
  dedupKeepFirstAux [] l

/-- Lookup in an insertion-ordered association list (JS `Map.prototype.get`). -/
def mapGet (l : List (String × Nat)) (k : String) : Option Nat :=
  (l.find? (fun kv => kv.1 = k)).map (fun kv => kv.2)

/-- Update/insert in an insertion-ordered association list
(JS `Map.prototype.set`: update in place, or append a new key). -/
def mapSet : List (String × Nat) → String → Nat → List (String × Nat)
  | [], k, v => [(k, v)]
  | (k', v') :: rest, k, v =>
    if k' = k then (k', v) :: rest else (k', v') :: mapSet rest k v

/-- The per-file counts map of the `-c` branch
(`counts.set(m.file, (counts.get(m.file) ?? 0) + 1)` over all matches),
iterated in key-insertion order. -/
def buildCounts (ms : List MatchLine) : List (String × Nat) :=
  ms.foldl (fun acc m => mapSet acc m.file ((mapGet acc m.file).getD 0 + 1)) []

/-- Embedding of `formatOutput`: mode priority `quiet` over `-l` over `-L`
over `-c` over normal, filename prefix only when `multiFile && !noFilename`
and the file name is nonempty (JS truthiness of `m.file`). -/
def formatOutput (ms : List MatchLine) (opts : GrepArgs)
    (multiFile : Bool) (_hadError : Bool) : ExecResult :=
  if opts.quiet then
    ⟨"", "", if ms.length > 0 then 0 else 1⟩
  else
    let showFile := multiFile && !opts.noFilename
    if opts.filesWithMatches then
      let files := dedupKeepFirst (ms.map (fun m => m.file))
      if files.isEmpty then ⟨"", "", 1⟩
      else ⟨joinWith "\n" files ++ "\n", "", 0⟩
    else if opts.filesWithoutMatch then
      let fwm := dedupKeepFirst (ms.map (fun m => m.file))
      if !fwm.isEmpty then ⟨"", "", 1⟩ else ⟨"", "", 0⟩
    else if opts.count then
      let counts := buildCounts ms
      if counts.isEmpty then ⟨"0\n", "", 1⟩
      else
        let lines := counts.map (fun fc =>
          if showFile && fc.1 ≠ "" then fc.1 ++ ":" ++ natToString fc.2
          else natToString fc.2)
        ⟨joinWith "\n" lines ++ "\n", "", 0⟩
    else if ms.isEmpty then ⟨"", "", 1⟩
    else
      let lines := ms.map (fun m =>
        (if showFile && m.file ≠ "" then m.file ++ ":" else "") ++
        (if opts.lineNumber then natToString m.lineNumber ++ ":" else "") ++
        (if opts.onlyMatching then m.matchText.getD "" else m.line))
      ⟨joinWith "\n" lines ++ "\n", "", 0⟩

-- ── Local grep (embedding of `grepFile`, `expandAndGrep`, `localGrep`,
--    `grepStdin`) ───────────────────────────────────────────────────────

/-- Result shape of `ctx.fs.stat`. -/
structure Stat where
  isFile : Bool
  isDirectory : Bool
  deriving Repr, DecidableEq

/-- Entry shape of `ctx.fs.readdirWithFileTypes`. -/
structure DirEntry where
  name : String
  isFile : Bool
  isDirectory : Bool
  deriving Repr, DecidableEq

/-- The `ctx.fs` capability object (subset of just-bash `CommandContext`).
Each fallible operation returns `Except String` — `.error` is a thrown
exception.  `readdirWithFileTypes` is the optional method of the source. -/
structure FsLike where
  readFile : String → Except String String
  readdir : String → Except String (List String)
  stat : String → Except String Stat
  readdirWithFileTypes : Option (String → Except String (List DirEntry))
  resolvePath : String → String → String

/-- The `ctx` argument of `execute` (subset used by the command). -/
structure CommandContext where
  fs : FsLike
  cwd : String
  stdin : String

/-- Embedding of `grepFile`: read the file (a throw propagates), split
lines, collect records. -/
def grepFile (fs : FsLike) (filePath : String) (re : ExecRegex)
    (opts : GrepArgs) : Except String (List MatchLine) :=
  match fs.readFile filePath with
  | .error e => .error e
  | .ok content => .ok (collectMatches re opts filePath 0 (splitLines content))

/-- Embedding of `expandAndGrep` (depth-first directory expansion).  The
`fuel` argument is a modelling artifact for the source's unbounded recursion
(which would diverge on a cyclic filesystem); every theorem supplies enough
fuel for the filesystems it touches.  In the `readdir` fallback branch each
child is wrapped in a `try`/`catch` that skips the child on any error, while
in the `readdirWithFileTypes` branch errors propagate — both as in the source. -/
def expandAndGrep : Nat → FsLike → String → ExecRegex → GrepArgs →
    Except String (List MatchLine)
  | 0, _, _, _, _ => .error "grep: directory recursion fuel exhausted"
  | fuel + 1, fs, dir, re, opts =>
    match fs.readdirWithFileTypes with
    | some rdwft => do
      let entries ← rdwft dir
      entries.foldlM (fun acc entry => do
        let childPath := fs.resolvePath dir entry.name
        if entry.isDirectory then
          let sub ← expandAndGrep fuel fs childPath re opts
          .ok (acc ++ sub)
        else if entry.isFile then
          let ms ← grepFile fs childPath re opts
          .ok (acc ++ ms)
        else .ok acc) []
    | none => do
      let names ← fs.readdir dir
      .ok (names.foldl (fun acc name =>
        let childPath := fs.resolvePath dir name
        let attempt : Except String (List MatchLine) := do
          let childStat ← fs.stat childPath
          if childStat.isDirectory then
            expandAndGrep fuel fs childPath re opts
          else if childStat.isFile then
            grepFile fs childPath re opts
          else .ok []
        match attempt with
        | .ok ms => acc ++ ms
        | .error _ => acc) [])

/-- Embedding of `localGrep`: stat the path; a directory without `recursive`
silently yields zero matches (the source returns `[]` under a comment naming
the real-grep error, but reports nothing); otherwise recurse or grep. -/
def localGrep (fuel : Nat) (fs : FsLike) (path : String) (re : ExecRegex)
    (opts : GrepArgs) : Except String (List MatchLine) :=
  match fs.stat path with
  | .error e => .error e
  | .ok st =>
    if st.isDirectory then
      if !opts.recursive then .ok []
      else expandAndGrep fuel fs path re opts
    else grepFile fs path re opts

/-- Embedding of `grepStdin`: split stdin, collect records with an empty file
name, truncate with `maxCount`, format as a single (non-multi-file) target. -/
def grepStdin (stdin : String) (re : ExecRegex) (opts : GrepArgs) : ExecResult :=
  let ms := collectMatches re opts "" 0 (splitLines stdin)
  formatOutput (applyMaxCount ms opts) opts false false

-- ── Arg parsing (embedding of `parseGrepArgs` and `applyFlag`) ────────

/-- The `BOOLEAN_FLAGS` set of the source. -/
def BOOLEAN_FLAGS : List String :=
  ["-i", "-n", "-v", "-c", "-l", "-L", "-r", "-R", "-E", "-F", "-w", "-o",
    "-h", "-q"]

/-- The `LONG_FLAGS` map of the source (long form to short form). -/
def longFlag (arg : String) : Option String :=
  if arg = "--ignore-case" then some "-i"
  else if arg = "--line-number" then some "-n"
  else if arg = "--invert-match" then some "-v"
  else if arg = "--count" then some "-c"
  else if arg = "--files-with-matches" then some "-l"
  else if arg = "--files-without-match" then some "-L"
  else if arg = "--recursive" then some "-r"
  else if arg = "--extended-regexp" then some "-E"
  else if arg = "--fixed-strings" then some "-F"
  else if arg = "--word-regexp" then some "-w"
  else if arg = "--only-matching" then some "-o"
  else if arg = "--no-filename" then some "-h"
  else if arg = "--quiet" then some "-q"
  else if arg = "--silent" then some "-q"
  else none

/-- Embedding of `applyFlag` (the `switch` setting one boolean field;
unrecognized flags fall through unchanged, like a `switch` without default). -/
def applyFlag (res : GrepArgs) (flag : String) : GrepArgs :=
  if flag = "-i" then { res with ignoreCase := true }
  else if flag = "-n" then { res with lineNumber := true }
  else if flag = "-v" then { res with invertMatch := true }
  else if flag = "-c" then { res with count := true }
  else if flag = "-l" then { res with filesWithMatches := true }
  else if flag = "-L" then { res with filesWithoutMatch := true }
  else if flag = "-r" || flag = "-R" then { res with recursive := true }
  else if flag = "-E" then { res with extendedRegexp := true }
  else if flag = "-F" then { res with fixedStrings := true }
  else if flag = "-w" then { res with wordRegexp := true }
  else if flag = "-o" then { res with onlyMatching := true }
  else if flag = "-h" then { res with noFilename := true }
  else if flag = "-q" then { res with quiet := true }
  else res

/-- Apply a run of single-character boolean flags in order
(the `for` loops re-dispatching each `-${arg[j]}` through `applyFlag`). -/
def applyFlags (res : GrepArgs) (cs : List Char) : GrepArgs :=
  cs.foldl (fun r c => applyFlag r ("-" ++ String.mk [c])) res

/-- Outcome of scanning a combined short-flag token such as `-inr`, `-ie3`
or `-im2` (the inner `for (let j ...)` loop of `parseGrepArgs` with its
`allFlags` flag and breaks).  The `need...` outcomes consume the next argv
token, which the caller supplies. -/
inductive ShortScan where
  | flagsOnly (res : GrepArgs)
  | withPattern (res : GrepArgs) (pat : String)
  | needPatternArg (res : GrepArgs)
  | withMax (res : GrepArgs) (raw : String)
  | needMaxArg (res : GrepArgs)
  | uerror (msg : String)
  deriving Repr

/-- The combined short-flag scan: `prev` holds the flag characters already
validated as boolean flags (applied only once the scan settles, as in the
source), `wholeArg` is the original token for error messages. -/
def scanCombined (res : GrepArgs) (wholeArg : String) :
    List Char → List Char → ShortScan
  | prev, [] => .flagsOnly (applyFlags res prev)
  | prev, c :: cs =>
    if BOOLEAN_FLAGS.contains ("-" ++ String.mk [c]) then
      scanCombined res wholeArg (prev ++ [c]) cs
    else if c = 'e' then
      let res2 := applyFlags res prev
      if cs.isEmpty then .needPatternArg res2
      else .withPattern res2 (String.mk cs)
    else if c = 'm' then
      let res2 := applyFlags res prev
      if cs.isEmpty then .needMaxArg res2
      else .withMax res2 (String.mk cs)
    else .uerror ("grep: unknown option: " ++ wholeArg ++ "\n")

/-- One iteration of the `while` loop of `parseGrepArgs` when the `--`
separator has not been seen: given the current token, the rest of argv and
the record so far, decide how the loop continues.  `skipNext` reports that
the branch consumed the following token (`args[++i]`). -/
inductive ParseStep where
  | perror (msg : String)
  | cont (res : GrepArgs) (seenDD skipNext : Bool)
  deriving Repr

/-- The loop body of `parseGrepArgs` before the `--` separator, translated
branch for branch from the source. -/
def parseStep (arg : String) (rest : List String) (res : GrepArgs) : ParseStep :=
  if arg = "--" then .cont res true false
  else if strStartsWith arg "--" then
    match longFlag arg with
    | some short => .cont (applyFlag res short) false false
    | none =>
      if strStartsWith arg "--max-count=" then
        match jsParseInt (strDrop arg 12) with
        | none => .perror ("grep: invalid max count: " ++ arg ++ "\n")
        | some v =>
          if v < 1 then .perror ("grep: invalid max count: " ++ arg ++ "\n")
          else .cont { res with maxCount := v.toNat } false false
      else .perror ("grep: unknown option: " ++ arg ++ "\n")
  else if strStartsWith arg "-" && strLen arg > 1 && res.patterns.isEmpty then
    if arg = "-e" then
      match rest with
      | [] => .perror "grep: option requires an argument -- 'e'\n"
      | next :: _ => .cont { res with patterns := res.patterns ++ [next] } false true
    else if arg = "-m" then
      match rest with
      | [] => .perror "grep: option requires an argument -- 'm'\n"
      | next :: _ =>
        match jsParseInt next with
        | none => .perror ("grep: invalid max count: " ++ next ++ "\n")
        | some v =>
          if v < 1 then .perror ("grep: invalid max count: " ++ next ++ "\n")
          else .cont { res with maxCount := v.toNat } false true
    else
      match scanCombined res arg [] (arg.toList.drop 1) with
      | .uerror e => .perror e
      | .flagsOnly res2 => .cont res2 false false
      | .withPattern res2 pat =>
        .cont { res2 with patterns := res2.patterns ++ [pat] } false false
      | .needPatternArg res2 =>
        match rest with
        | [] => .perror "grep: option requires an argument -- 'e'\n"
        | next :: _ => .cont { res2 with patterns := res2.patterns ++ [next] } false true
      | .withMax res2 raw =>
        match jsParseInt raw with
        | none => .perror "grep: invalid max count\n"
        | some v =>
          if v < 1 then .perror "grep: invalid max count\n"
          else .cont { res2 with maxCount := v.toNat } false false
      | .needMaxArg res2 =>
        match rest with
        | [] => .perror "grep: option requires an argument -- 'm'\n"
        | next :: _ =>
          match jsParseInt next with
          | none => .perror "grep: invalid max count\n"
          | some v =>
            if v < 1 then .perror "grep: invalid max count\n"
            else .cont { res2 with maxCount := v.toNat } false true
  else if strStartsWith arg "-" && strLen arg > 1 then
    if arg = "-e" then
      match rest with
      | [] => .perror "grep: option requires an argument -- 'e'\n"
      | next :: _ => .cont { res with patterns := res.patterns ++ [next] } false true
    else if arg = "-m" then
      match rest with
      | [] => .perror "grep: option requires an argument -- 'm'\n"
      | next :: _ =>
        match jsParseInt next with
        | none => .perror ("grep: invalid max count: " ++ next ++ "\n")
        | some v =>
          if v < 1 then .perror ("grep: invalid max count: " ++ next ++ "\n")
          else .cont { res with maxCount := v.toNat } false true
    else if (arg.toList.drop 1).all
        (fun c => BOOLEAN_FLAGS.contains ("-" ++ String.mk [c])) then
      .cont (applyFlags res (arg.toList.drop 1)) false false
    else
      .cont { res with files := res.files ++ [arg] } false false
  else
    if res.patterns.isEmpty then
      .cont { res with patterns := res.patterns ++ [arg] } false false
    else
      .cont { res with files := res.files ++ [arg] } false false

/-- The main `while` loop of `parseGrepArgs`.  The `Bool` is
`seenDoubleDash`; a returned `.error` is the usage-error string the source
returns instead of a `GrepArgs` record.  (The `.ok` under `skip = true` with
an empty rest is unreachable: `parseStep` only consumes a token it was
given.) -/
def parseLoop : List String → Bool → GrepArgs → Except String GrepArgs
  | [], _, res => .ok res
  | arg :: rest, true, res =>
    if res.patterns.isEmpty then
      parseLoop rest true { res with patterns := res.patterns ++ [arg] }
    else
      parseLoop rest true { res with files := res.files ++ [arg] }
  | arg :: rest, false, res =>
    match parseStep arg rest res with
    | .perror e => .error e
    | .cont res2 dd skip =>
      if skip then
        match rest with
        | [] => .ok res2
        | _ :: r => parseLoop r dd res2
      else parseLoop rest dd res2

/-- Embedding of `parseGrepArgs`: run the loop from the default record. -/
def parseGrepArgs (args : List String) : Except String GrepArgs :=
  parseLoop args false GrepArgs.init

-- ── The `execute` pipeline of `createGrepCommand` ────────────────────

/-- The remote substrate's grep operation (`vfs.grep(pattern, path)`);
`.error` is a thrown backend error. -/
def Vfs : Type :=
  String → String → Except String (List GrepMatch)

/-- The host regex engine: compile a pattern source and the `ignoreCase`
flag into a global matcher; `none` is a thrown `SyntaxError`
(the `try`/`catch` around `new RegExp`). -/
def Engine : Type :=
  String → Bool → Option ExecRegex

/-- Mount-point normalization at the top of `createGrepCommand`
(strip one trailing slash). -/
def normalizeMount (mountPoint : String) : String :=
  if strEndsWith mountPoint "/" then String.mk mountPoint.toList.dropLast
  else mountPoint

/-- Resolution of file arguments against `cwd`
(`f.startsWith("/") ? f : ctx.fs.resolvePath(ctx.cwd, f)`). -/
def resolveFiles (fs : FsLike) (cwd : String) (files : List String) : List String :=
  files.map (fun f => if strStartsWith f "/" then f else fs.resolvePath cwd f)

/-- Path classification: remote-eligible (under the mount) first, local
second, each in argument order (the single pass pushing into two arrays). -/
def classifyPaths (mount : String) (paths : List String) :
    List String × List String :=
  paths.partition (fun p => p = mount || strStartsWith p (mount ++ "/"))

/-- Mount-relative to substrate-native path translation
(`p === mount ? "/" : p.slice(mount.length)`, then `vfsPath || "/"`). -/
def vfsPathOf (mount p : String) : String :=
  let v := if p = mount then "/" else strDrop p (strLen mount)
  if v = "" then "/" else v

/-- The usage-error result returned for a missing pattern or missing input. -/
def usageResult : ExecResult :=
  ⟨"", "grep: usage: grep [OPTIONS] PATTERN [FILE...]\n", 2⟩

/-- The server-side loop over the remote-eligible paths.  A `.error` result
is the early `return` of the fatal sole-target case; otherwise the loop
accumulates converted matches and the `hadError` flag.  `lpsEmpty` and
`opsLen` are `localPaths.length === 0` and `openfsPaths.length`, fixed for
the whole invocation. -/
def serverLoop (vfs : Vfs) (serverPat mount : String) (re : ExecRegex)
    (opts : GrepArgs) (lpsEmpty : Bool) (opsLen : Nat) :
    List String → List MatchLine → Bool → Except ExecResult (List MatchLine × Bool)
  | [], acc, hadError => .ok (acc, hadError)
  | p :: rest, acc, hadError =>
    match vfs serverPat (vfsPathOf mount p) with
    | .ok ms =>
      serverLoop vfs serverPat mount re opts lpsEmpty opsLen rest
        (acc ++ convertServerMatches mount re opts ms) hadError
    | .error msg =>
      let hadError2 := if !opts.quiet then true else hadError
      if lpsEmpty && opsLen = 1 then
        .error ⟨"", "grep: " ++ msg ++ "\n", 2⟩
      else
        serverLoop vfs serverPat mount re opts lpsEmpty opsLen rest acc hadError2

/-- A local-grep loop over a path list (used both for the OpenFS fallback
when the gate refuses delegation and for the plain local paths): errors are
caught, recorded in `hadError` unless `quiet`, and never abort the rest. -/
def localLoop (fuel : Nat) (fs : FsLike) (re : ExecRegex) (opts : GrepArgs) :
    List String → List MatchLine → Bool → List MatchLine × Bool
  | [], acc, hadError => (acc, hadError)
  | p :: rest, acc, hadError =>
    match localGrep fuel fs p re opts with
    | .ok ms => localLoop fuel fs re opts rest (acc ++ ms) hadError
    | .error _ =>
      localLoop fuel fs re opts rest acc (if !opts.quiet then true else hadError)

/-- Embedding of `createGrepCommand(vfs, mountPoint).execute(args, ctx)`, the
whole command pipeline.  `engine` abstracts the host `RegExp` constructor and
`fuel` bounds the directory recursion (see `expandAndGrep`). -/
def executeGrep (engine : Engine) (fuel : Nat) (vfs : Vfs)
    (mountPoint : String) (args : List String) (ctx : CommandContext) : ExecResult :=
  let mount := normalizeMount mountPoint
  match parseGrepArgs args with
  | .error e => ⟨"", e, 2⟩
  | .ok parsed =>
    if parsed.patterns.isEmpty then usageResult
    else
      let pattern := joinWith "|" parsed.patterns
      match engine (buildRegexSrc pattern parsed) parsed.ignoreCase with
      | none => ⟨"", "grep: invalid regular expression: " ++ pattern ++ "\n", 2⟩
      | some re =>
        if parsed.files.isEmpty then
          if ctx.stdin = "" then usageResult
          else grepStdin ctx.stdin re parsed
        else
          let resolvedFiles := resolveFiles ctx.fs ctx.cwd parsed.files
          let classified := classifyPaths mount resolvedFiles
          let ops := classified.1
          let lps := classified.2
          let canUseServerSide := !ops.isEmpty && isServerSideCompatible parsed
          let multiFile := decide (resolvedFiles.length > 1) || parsed.recursive
          let phase1 : Except ExecResult (List MatchLine × Bool) :=
            if canUseServerSide then
              serverLoop vfs (buildServerPattern pattern parsed) mount re parsed
                lps.isEmpty ops.length ops [] false
            else if !ops.isEmpty then
              .ok (localLoop fuel ctx.fs re parsed ops [] false)
            else .ok ([], false)
          match phase1 with
          | .error r => r
          | .ok (r1, he1) =>
            let phase2 := localLoop fuel ctx.fs re parsed lps r1 he1
            let allResults := phase2.1
            let hadError := phase2.2
            let multiFile2 := multiFile ||
              (!allResults.isEmpty &&
                decide ((dedupKeepFirst (allResults.map (fun m => m.file))).length > 1))
            formatOutput (applyMaxCount allResults parsed) parsed multiFile2 hadError

-- ── Concrete fixtures shared by witnesses and counterexamples ────────

/-- An engine interpreting every pattern source as a literal string.  It is
used only at metacharacter-free patterns, where literal search and JS regex
search coincide. -/
def litEngine : Engine := fun src _ => some (litRegex src)

/-- A filesystem whose every operation throws (no local files needed). -/
def noFs : FsLike :=
  ⟨fun _ => .error "nofs", fun _ => .error "nofs", fun _ => .error "nofs",
    none, fun a b => a ++ "/" ++ b⟩

/-- A remote oracle that fails on the path `/f` and returns no matches
elsewhere. -/
def vfsErrOnF : Vfs := fun _ path =>
  if path = "/f" then .error "boom" else .ok []

/-- A remote oracle that always returns no matches. -/
def vfsOkEmpty : Vfs := fun _ _ => .ok []

/-- A context with no stdin (file-argument invocations). -/
def ctxNoStdin : CommandContext := ⟨noFs, "/", ""⟩

-- ── Claim C4 ─────────────────────────────────────────────────────────

/-- C4 (counterexample): with both `fixedStrings` and `wordRegexp` set, the
remote pattern for `"a.b"` is only the escaped pattern — not, as the claim
states, the escaped pattern wrapped in word-boundary anchors (which is what
the local matcher compiles). -/
theorem c4_counterexample :
    buildServerPattern "a.b" { GrepArgs.init with fixedStrings := true, wordRegexp := true } =
      "a\\.b" ∧
    buildRegexSrc "a.b" { GrepArgs.init with fixedStrings := true, wordRegexp := true } =
      "\\ba\\.b\\b" ∧
    buildServerPattern "a.b" { GrepArgs.init with fixedStrings := true, wordRegexp := true } ≠
      "\\b" ++ escapeRegex "a.b" ++ "\\b" := by
  refine ⟨by decide, by decide, by decide⟩

/-- C4 (amended): the remote-pattern string agrees with the local matcher's
source string whenever at most one of `fixedStrings` and `wordRegexp` is set
(escaping when `fixedStrings`, word-boundary anchors when `wordRegexp`); when
both are set, `fixedStrings` takes priority remotely and the remote pattern is
only the escaped pattern, while the local source also wraps it in
word-boundary anchors. -/
theorem c4_server_pattern_transforms (pattern : String) (opts : GrepArgs) :
    (¬(opts.fixedStrings = true ∧ opts.wordRegexp = true) →
      buildServerPattern pattern opts = buildRegexSrc pattern opts) ∧
    (opts.fixedStrings = true → opts.wordRegexp = true →
      buildServerPattern pattern opts = escapeRegex pattern ∧
      buildRegexSrc pattern opts = "\\b" ++ escapeRegex pattern ++ "\\b") := by
  unfold buildServerPattern buildRegexSrc
  constructor
  · intro h
    rcases hf : opts.fixedStrings with _ | _ <;>
      rcases hw : opts.wordRegexp with _ | _ <;> simp_all
  · intro hf hw
    simp [hf, hw]

/-- Witness for C4's amended theorem at concrete flag values. -/
theorem c4_witness :
    buildServerPattern "a.b" { GrepArgs.init with fixedStrings := true } =
      buildRegexSrc "a.b" { GrepArgs.init with fixedStrings := true } ∧
    buildServerPattern "a.b" { GrepArgs.init with fixedStrings := true, wordRegexp := true } =
      escapeRegex "a.b" :=
  ⟨(c4_server_pattern_transforms "a.b" _).1 (by decide),
    ((c4_server_pattern_transforms "a.b" _).2 (by decide) (by decide)).1⟩

-- ── Claim C5 ─────────────────────────────────────────────────────────

/-- C5 (counterexample): in `["-e", "p", "--", "-n"]` the pattern slot is
already claimed before the separator, and the first token after `--` is made
a file argument — it does not appear among the patterns, contradicting the
claim that it is taken as the pattern unconditionally. -/
theorem c5_counterexample :
    parseGrepArgs ["-e", "p", "--", "-n"] =
      .ok { GrepArgs.init with patterns := ["p"], files := ["-n"] } ∧
    "-n" ∉ ({ GrepArgs.init with patterns := ["p"], files := ["-n"] } : GrepArgs).patterns := by
  refine ⟨by decide, by decide⟩

/-- C5 (amended): after the `--` separator every token is positional — never
a flag or a flag value; the first token after the separator becomes the
pattern exactly when no pattern was claimed before the separator, and
otherwise it and all later tokens are file arguments. -/
theorem c5_after_separator (post : List String) :
    (∀ res : GrepArgs, parseLoop ("--" :: post) false res = parseLoop post true res) ∧
    (∀ res : GrepArgs, parseLoop post true res =
      .ok { res with
        patterns := res.patterns ++ (if res.patterns.isEmpty then post.take 1 else []),
        files := res.files ++ (if res.patterns.isEmpty then post.drop 1 else post) }) := by
  constructor
  · intro res
    simp [parseLoop, parseStep]
  · induction post with
    | nil =>
      intro res
      cases res
      simp [parseLoop]
    | cons a post ih =>
      intro res
      rcases hp : res.patterns with _ | ⟨p, ps⟩
      · show parseLoop (a :: post) true res = _
        unfold parseLoop
        simp only [hp, List.isEmpty_nil, if_true]
        rw [ih]
        simp [hp]
      · show parseLoop (a :: post) true res = _
        unfold parseLoop
        simp only [hp, List.isEmpty_cons, if_false, Bool.false_eq_true]
        rw [ih]
        simp [hp]

-- ── Claim C3 ─────────────────────────────────────────────────────────

/-- C3 (counterexample): with `ignoreCase` unset, a remote hit whose line
fails local re-validation (the local matcher finds nothing in `"xyz"`) is
kept, not discarded — its record is emitted with no matched substring. -/
theorem c3_counterexample :
    (litRegex "hello").execFrom "xyz" 0 = none ∧
    convertServerMatches "/data" (litRegex "hello") GrepArgs.init [⟨"/a", 1, "xyz"⟩] =
      [⟨"/data/a", 1, "xyz", none⟩] := by
  refine ⟨by rfl, by rfl⟩

/-- C3 (amended): every remote match is re-run against the local matcher
(to extract the matched substring), but a hit failing re-validation is
discarded only when `ignoreCase` is set; when `ignoreCase` is unset every
remote hit is kept regardless of local re-validation. -/
theorem c3_revalidation (ms : List GrepMatch) (mount : String)
    (re : ExecRegex) (opts : GrepArgs) :
    (opts.ignoreCase = true →
      convertServerMatches mount re opts ms =
        convertServerMatches mount re opts
          (ms.filter (fun m => (re.execFrom m.line 0).isSome))) ∧
    (opts.ignoreCase = false →
      (convertServerMatches mount re opts ms).length = ms.length) := by
  constructor
  · intro hi
    induction ms with
    | nil => rfl
    | cons m rest ih =>
      rcases hm : re.execFrom m.line 0 with _ | jm
      · simp [convertServerMatches, hm, hi, ih]
      · simp [convertServerMatches, hm, hi, ih]
  · intro hi
    induction ms with
    | nil => rfl
    | cons m rest ih =>
      simp [convertServerMatches, hi, ih]

/-- Witness for C3's amended theorem: the `ignoreCase` filtering branch on a
failing hit, and the keep-everything branch at the default options. -/
theorem c3_witness :
    convertServerMatches "/data" (litRegex "hello")
        { GrepArgs.init with ignoreCase := true } [⟨"/a", 1, "xyz"⟩] =
      convertServerMatches "/data" (litRegex "hello")
        { GrepArgs.init with ignoreCase := true }
        (([⟨"/a", 1, "xyz"⟩] : List GrepMatch).filter
          (fun m => ((litRegex "hello").execFrom m.line 0).isSome)) ∧
    (convertServerMatches "/data" (litRegex "hello") GrepArgs.init
        [⟨"/a", 1, "xyz"⟩]).length = 1 :=
  ⟨(c3_revalidation [⟨"/a", 1, "xyz"⟩] "/data" (litRegex "hello") _).1 rfl,
    (c3_revalidation [⟨"/a", 1, "xyz"⟩] "/data" (litRegex "hello") _).2 rfl⟩

-- ── Claim C1 ─────────────────────────────────────────────────────────

/-- C1: the capability gate returns `false` exactly when `invertMatch` or
`onlyMatching` is set, and whenever it returns `false` the command's result
does not depend on the remote oracle at all — the remote grep is never
invoked and every path is evaluated by the local matcher. -/
theorem c1_capability_gate :
    (∀ opts : GrepArgs, isServerSideCompatible opts = false ↔
      (opts.invertMatch = true ∨ opts.onlyMatching = true)) ∧
    (∀ (engine : Engine) (fuel : Nat) (vfs1 vfs2 : Vfs) (mountPoint : String)
      (args : List String) (ctx : CommandContext) (opts : GrepArgs),
      parseGrepArgs args = .ok opts → isServerSideCompatible opts = false →
      executeGrep engine fuel vfs1 mountPoint args ctx =
        executeGrep engine fuel vfs2 mountPoint args ctx) := by
  constructor
  · intro opts
    unfold isServerSideCompatible
    rcases opts.invertMatch with _ | _ <;> rcases opts.onlyMatching with _ | _ <;> simp
  · intro engine fuel vfs1 vfs2 mountPoint args ctx opts hparse hgate
    unfold executeGrep
    rw [hparse]
    simp only [hgate, Bool.and_false, Bool.false_eq_true, if_false]

/-- Witness for C1: with `-v` set the result is the same whether the remote
oracle fails or succeeds — the backend is never consulted. -/
theorem c1_witness :
    executeGrep litEngine 5 vfsErrOnF "/data" ["-v", "x", "/data/f"] ctxNoStdin =
      executeGrep litEngine 5 vfsOkEmpty "/data" ["-v", "x", "/data/f"] ctxNoStdin :=
  c1_capability_gate.2 litEngine 5 vfsErrOnF vfsOkEmpty "/data" ["-v", "x", "/data/f"]
    ctxNoStdin { GrepArgs.init with patterns := ["x"], files := ["/data/f"], invertMatch := true }
    (by decide) (by decide)

-- ── Claim C7 ─────────────────────────────────────────────────────────

/-- Helper for C7: the per-file content of the `applyMaxCount` loop, for any
starting counts map: for file `f`, the output keeps the first
`maxCount - counts f` records of `f`, in encounter order. -/
theorem applyMaxCountAux_filter (N : Nat) (f : String) (ms : List MatchLine) :
    ∀ counts : String → Nat,
      (applyMaxCountAux N ms counts).filter (fun m => m.file = f) =
        (ms.filter (fun m => m.file = f)).take (N - counts f) := by
  induction ms with
  | nil =>
    intro counts
    simp [applyMaxCountAux]
  | cons m rest ih =>
    intro counts
    unfold applyMaxCountAux
    by_cases hc : counts m.file < N
    · simp only [hc, if_true]
      by_cases hf : m.file = f
      · subst hf
        have h1 : N - counts m.file = (N - (counts m.file + 1)) + 1 := by omega
        simp [List.filter_cons, ih, h1, List.take_succ_cons]
      · have hf2 : ¬(f = m.file) := fun hx => hf hx.symm
        simp [List.filter_cons, hf, hf2, ih]
    · simp only [hc, if_false]
      by_cases hf : m.file = f
      · subst hf
        have h1 : N - counts m.file = 0 := by omega
        simp [List.filter_cons, ih, h1]
      · simp [List.filter_cons, hf, ih]

/-- C7: `applyMaxCount` with `maxCount = N > 0` keeps, for each distinct file
independently, exactly the first `N` records of that file in encounter order;
with `maxCount = 0` every record is kept.  Scenario D: `-m 1` on stdin
`"hello one\nhello two\nhello three\n"` with pattern `"hello"` prints only
`"hello one\n"`. -/
theorem c7_max_count_per_file :
    (∀ (ms : List MatchLine) (opts : GrepArgs) (f : String), opts.maxCount ≠ 0 →
      (applyMaxCount ms opts).filter (fun m => m.file = f) =
        (ms.filter (fun m => m.file = f)).take opts.maxCount) ∧
    (∀ (ms : List MatchLine) (opts : GrepArgs), opts.maxCount = 0 →
      applyMaxCount ms opts = ms) ∧
    executeGrep litEngine 5 vfsOkEmpty "/data" ["-m", "1", "hello"]
        ⟨noFs, "/", "hello one\nhello two\nhello three\n"⟩ =
      ⟨"hello one\n", "", 0⟩ := by
  refine ⟨?_, ?_, by decide⟩
  · intro ms opts f h
    unfold applyMaxCount
    simp only [h, if_false]
    have h2 := applyMaxCountAux_filter opts.maxCount f ms (fun _ => 0)
    simpa using h2
  · intro ms opts h
    unfold applyMaxCount
    simp [h]

/-- Witness for C7 at a concrete record list: `-m 1` keeps only the first
record of the (single) file, and `maxCount = 0` keeps everything. -/
theorem c7_witness :
    (applyMaxCount [⟨"", 1, "a", none⟩, ⟨"", 2, "b", none⟩]
        { GrepArgs.init with maxCount := 1 }).filter (fun m => m.file = "") =
      (([⟨"", 1, "a", none⟩, ⟨"", 2, "b", none⟩] : List MatchLine).filter
        (fun m => m.file = "")).take 1 ∧
    applyMaxCount [⟨"", 1, "a", none⟩, ⟨"", 2, "b", none⟩] GrepArgs.init =
      [⟨"", 1, "a", none⟩, ⟨"", 2, "b", none⟩] :=
  ⟨c7_max_count_per_file.1 _ _ "" (by decide),
    c7_max_count_per_file.2.1 _ GrepArgs.init rfl⟩

-- ── Claim C8 ─────────────────────────────────────────────────────────

/-- Helper for C8: the `-o` scan loop needs at most one step per remaining
cursor position — any fuel exceeding `strLen line + 1 - pos` completes. -/
theorem scanStep_isSome (re : ExecRegex) (line : String) :
    ∀ (fuel pos : Nat), strLen line + 1 - pos < fuel →
      (scanStep re line fuel pos).isSome = true := by
  intro fuel
  induction fuel with
  | zero =>
    intro pos h
    omega
  | succ fuel ih =>
    intro pos h
    unfold scanStep
    rcases hm : re.execFrom line pos with _ | ⟨j, s⟩
    · simp
    · have h1 : pos ≤ j := re.le_start line pos j s hm
      have h2 : j + strLen s ≤ strLen line := re.end_le line pos j s hm
      by_cases hz : strLen s = 0
      · have h3 : strLen line + 1 - (j + 1) < fuel := by omega
        have h4 := ih (j + 1) h3
        rcases Option.isSome_iff_exists.mp h4 with ⟨rest, hrest⟩
        simp [hz, hrest]
      · have h3 : strLen line + 1 - (j + strLen s) < fuel := by omega
        have h4 := ih (j + strLen s) h3
        rcases Option.isSome_iff_exists.mp h4 with ⟨rest, hrest⟩
        simp [hz, hrest]

/-- C8: the per-line `-o` scan terminates for every line and every matcher —
the fuelled embedding of the `while` loop returns within `strLen line + 2`
steps even when the matcher admits zero-length matches (the cursor is bumped
by one after a zero-length match) — and under `-o` the line contributes
exactly one record per non-overlapping match occurrence found by the scan. -/
theorem c8_scan_terminates (re : ExecRegex) (line : String) :
    scanStep re line (strLen line + 2) 0 = some (findAllMatches re line) ∧
    (∀ (opts : GrepArgs) (file : String) (ln : Nat),
      opts.onlyMatching = true → opts.invertMatch = false →
      (re.execFrom line 0).isSome = true →
      lineRecords re opts file ln line =
        (findAllMatches re line).map (fun js => (⟨file, ln, line, some js.2⟩ : MatchLine))) := by
  have hs := scanStep_isSome re line (strLen line + 2) 0 (by omega)
  rcases Option.isSome_iff_exists.mp hs with ⟨l, hl⟩
  constructor
  · unfold findAllMatches
    rw [hl]
    rfl
  · intro opts file ln ho hv hm
    unfold lineRecords
    simp [ho, hv, hm]

/-- Witness for C8: the empty literal pattern produces zero-length matches at
every cursor position of `"ab"`, and the scan still terminates, emitting one
record per occurrence. -/
theorem c8_witness :
    scanStep (litRegex "") "ab" (strLen "ab" + 2) 0 =
      some (findAllMatches (litRegex "") "ab") ∧
    lineRecords (litRegex "") { GrepArgs.init with onlyMatching := true } "f" 1 "ab" =
      (findAllMatches (litRegex "") "ab").map
        (fun js => (⟨"f", 1, "ab", some js.2⟩ : MatchLine)) :=
  ⟨(c8_scan_terminates (litRegex "") "ab").1,
    (c8_scan_terminates (litRegex "") "ab").2 _ "f" 1 rfl rfl (by decide)⟩

-- ── Claim C6 ─────────────────────────────────────────────────────────

/-- A filesystem with a single directory `/d` and nothing readable. -/
def dirOnlyFs : FsLike :=
  ⟨fun _ => .error "nofile",
    fun _ => .error "nodir",
    fun p => if p = "/d" then .ok ⟨false, true⟩ else .error "nostat",
    none,
    fun a b => a ++ "/" ++ b⟩

/-- A two-level tree: `/d` contains the directory `sub` (holding `a.txt`)
and the file `b.txt`; both files hold the line `"x"`. -/
def treeFs : FsLike :=
  ⟨fun p =>
      if p = "/d/sub/a.txt" then .ok "x\n"
      else if p = "/d/b.txt" then .ok "x\n"
      else .error "nofile",
    fun p =>
      if p = "/d" then .ok ["sub", "b.txt"]
      else if p = "/d/sub" then .ok ["a.txt"]
      else .error "nodir",
    fun p =>
      if p = "/d" then .ok ⟨false, true⟩
      else if p = "/d/sub" then .ok ⟨false, true⟩
      else if p = "/d/sub/a.txt" then .ok ⟨true, false⟩
      else if p = "/d/b.txt" then .ok ⟨true, false⟩
      else .error "nostat",
    none,
    fun a b => a ++ "/" ++ b⟩

/-- C6 (counterexample): a directory target without `recursive` is not
reported as an error — the whole invocation ends with empty stderr and the
ordinary no-match exit code 1, the directory silently contributing zero
matches. -/
theorem c6_counterexample :
    dirOnlyFs.stat "/d" = .ok ⟨false, true⟩ ∧
    localGrep 5 dirOnlyFs "/d" (litRegex "x") GrepArgs.init = .ok [] ∧
    executeGrep litEngine 5 vfsOkEmpty "/om" ["x", "/d"] ⟨dirOnlyFs, "/", ""⟩ =
      ⟨"", "", 1⟩ := by
  refine ⟨by decide, by decide, by decide⟩

/-- C6 (amended): a file argument resolving to a directory contributes zero
matches silently (no error) when `recursive` is unset; when `recursive` is
set, children are enumerated in `readdir` order and matched depth-first
(the nested directory's file precedes the later sibling file), an order that
is deterministic — hence stable within a run — in this sequential pipeline. -/
theorem c6_directory_handling :
    (∀ (fuel : Nat) (fs : FsLike) (p : String) (re : ExecRegex)
      (opts : GrepArgs) (st : Stat),
      fs.stat p = .ok st → st.isDirectory = true → opts.recursive = false →
      localGrep fuel fs p re opts = .ok []) ∧
    expandAndGrep 5 treeFs "/d" (litRegex "x")
        { GrepArgs.init with recursive := true } =
      .ok [⟨"/d/sub/a.txt", 1, "x", some "x"⟩, ⟨"/d/b.txt", 1, "x", some "x"⟩] := by
  refine ⟨?_, by decide⟩
  intro fuel fs p re opts st hstat hdir hrec
  unfold localGrep
  rw [hstat]
  simp [hdir, hrec]

/-- Witness for C6's amended theorem at the concrete directory fixture. -/
theorem c6_witness :
    localGrep 7 dirOnlyFs "/d" (litRegex "x") GrepArgs.init = .ok [] :=
  c6_directory_handling.1 7 dirOnlyFs "/d" (litRegex "x") GrepArgs.init
    ⟨false, true⟩ (by decide) rfl rfl

-- ── Claim C9 ─────────────────────────────────────────────────────────

/-- A string containing no newline character. -/
def noNl (s : String) : Prop := '\n' ∉ s.data

instance (s : String) : Decidable (noNl s) :=
  inferInstanceAs (Decidable ('\n' ∉ s.data))

theorem digitChar_ne_nl (d : Nat) : digitChar d ≠ '\n' := by
  unfold digitChar
  split <;> decide

theorem natToCharsAux_mem (fuel : Nat) :
    ∀ (n : Nat) (acc : List Char) (c : Char), c ∈ natToCharsAux fuel n acc →
      c ∈ acc ∨ ∃ d, c = digitChar d := by
  induction fuel with
  | zero =>
    intro n acc c h
    exact Or.inl h
  | succ fuel ih =>
    intro n acc c h
    unfold natToCharsAux at h
    by_cases hn : n = 0
    · rw [if_pos hn] at h
      exact Or.inl h
    · rw [if_neg hn] at h
      rcases ih _ _ _ h with h2 | h2
      · rcases List.mem_cons.mp h2 with h3 | h3
        · exact Or.inr ⟨n % 10, h3⟩
        · exact Or.inl h3
      · exact Or.inr h2

theorem natToString_noNl (n : Nat) : noNl (natToString n) := by
  unfold natToString noNl
  by_cases hn : n = 0
  · rw [if_pos hn]
    decide
  · rw [if_neg hn]
    intro hmem
    rcases natToCharsAux_mem n n [] '\n' hmem with h | ⟨d, hd⟩
    · exact absurd h (List.not_mem_nil _)
    · exact digitChar_ne_nl d hd.symm

theorem noNl_append (a b : String) (ha : noNl a) (hb : noNl b) : noNl (a ++ b) := by
  unfold noNl at *
  rw [String.data_append]
  intro h
  rcases List.mem_append.mp h with h2 | h2
  · exact ha h2
  · exact hb h2

theorem mem_dedupKeepFirstAux (l : List String) :
    ∀ (seen : List String) (x : String), x ∈ dedupKeepFirstAux seen l → x ∈ l := by
  induction l with
  | nil =>
    intro seen x h
    exact absurd h (List.not_mem_nil _)
  | cons a l ih =>
    intro seen x h
    unfold dedupKeepFirstAux at h
    by_cases ha : a ∈ seen
    · rw [if_pos ha] at h
      exact List.mem_cons_of_mem _ (ih _ _ h)
    · rw [if_neg ha] at h
      rcases List.mem_cons.mp h with h2 | h2
      · exact h2 ▸ List.mem_cons_self _ _
      · exact List.mem_cons_of_mem _ (ih _ _ h2)

theorem mapSet_mem (k : String) (v : Nat) :
    ∀ (l : List (String × Nat)) (kv : String × Nat), kv ∈ mapSet l k v →
      kv.1 = k ∨ ∃ w, (kv.1, w) ∈ l := by
  intro l
  induction l with
  | nil =>
    intro kv h
    unfold mapSet at h
    rcases List.mem_singleton.mp h with h2
    rw [h2]
    exact Or.inl rfl
  | cons p rest ih =>
    intro kv h
    unfold mapSet at h
    by_cases hk : p.1 = k
    · rw [if_pos hk] at h
      rcases List.mem_cons.mp h with h2 | h2
      · rw [h2]
        exact Or.inl hk
      · exact Or.inr ⟨kv.2, List.mem_cons_of_mem _ (by simpa using h2)⟩
    · rw [if_neg hk] at h
      rcases List.mem_cons.mp h with h2 | h2
      · rw [h2]
        exact Or.inr ⟨p.2, List.mem_cons_self _ _⟩
      · rcases ih kv h2 with h3 | ⟨w, hw⟩
        · exact Or.inl h3
        · exact Or.inr ⟨w, List.mem_cons_of_mem _ hw⟩

theorem buildCounts_key_mem_aux (ms : List MatchLine) :
    ∀ (acc : List (String × Nat)) (kv : String × Nat),
      kv ∈ ms.foldl
        (fun acc m => mapSet acc m.file ((mapGet acc m.file).getD 0 + 1)) acc →
      (∃ w, (kv.1, w) ∈ acc) ∨ kv.1 ∈ ms.map (fun m => m.file) := by
  induction ms with
  | nil =>
    intro acc kv h
    exact Or.inl ⟨kv.2, by simpa using h⟩
  | cons m rest ih =>
    intro acc kv h
    rw [List.foldl_cons] at h
    rcases ih _ _ h with ⟨w, hw⟩ | h2
    · rcases mapSet_mem _ _ _ _ hw with h3 | ⟨w2, hw2⟩
      · exact Or.inr (by simp [List.map_cons]; left; exact h3)
      · exact Or.inl ⟨w2, hw2⟩
    · exact Or.inr (by simp [List.map_cons]; right; simpa using h2)

theorem buildCounts_key_mem (ms : List MatchLine) (kv : String × Nat)
    (h : kv ∈ buildCounts ms) : kv.1 ∈ ms.map (fun m => m.file) := by
  rcases buildCounts_key_mem_aux ms [] kv h with ⟨w, hw⟩ | h2
  · exact absurd hw (List.not_mem_nil _)
  · exact h2

theorem splitNlAux_noNl (cs : List Char) :
    ∀ (cur : List Char), '\n' ∉ cur → ∀ s ∈ splitNlAux cur cs, noNl s := by
  induction cs with
  | nil =>
    intro cur hcur s hs
    rcases List.mem_singleton.mp hs with h2
    rw [h2]
    unfold noNl
    intro hm
    exact hcur (by simpa using hm)
  | cons c rest ih =>
    intro cur hcur s hs
    unfold splitNlAux at hs
    by_cases hc : c = '\n'
    · rw [if_pos hc] at hs
      rcases List.mem_cons.mp hs with h2 | h2
      · rw [h2]
        unfold noNl
        intro hm
        exact hcur (by simpa using hm)
      · exact ih [] (List.not_mem_nil _) s h2
    · rw [if_neg hc] at hs
      refine ih (c :: cur) ?_ s hs
      intro hm
      rcases List.mem_cons.mp hm with h2 | h2
      · exact hc h2.symm
      · exact hcur h2

/-- Supporting fact for C9: the line splitter of `grepFile` and `grepStdin`
only produces newline-free lines, so the newline-freedom hypotheses of
`c9_trailing_newline` hold for every record line built from file or stdin
contents. -/
theorem splitLines_noNl (content : String) : ∀ s ∈ splitLines content, noNl s := by
  intro s hs
  have hbase := splitNlAux_noNl content.toList [] (List.not_mem_nil _)
  unfold splitLines at hs
  dsimp only at hs
  split at hs
  · exact hbase s (List.dropLast_subset _ hs)
  · exact hbase s hs

/-- C9: for every record list whose fields are newline-free (as produced by
splitting file contents on newlines) and every output mode, the formatted
stdout is either empty or the newline-join of nonempty newline-free output
lines followed by exactly one trailing newline. -/
theorem c9_trailing_newline (ms : List MatchLine) (opts : GrepArgs)
    (multiFile hadErr : Bool)
    (h : ∀ m ∈ ms, noNl m.file ∧ noNl m.line ∧
      ∀ s, m.matchText = some s → noNl s) :
    (formatOutput ms opts multiFile hadErr).stdout = "" ∨
    ∃ L, L ≠ [] ∧ (∀ s ∈ L, noNl s) ∧
      (formatOutput ms opts multiFile hadErr).stdout = joinWith "\n" L ++ "\n" := by
  unfold formatOutput
  by_cases hq : opts.quiet = true
  · rw [if_pos hq]
    exact Or.inl rfl
  · rw [if_neg hq]
    by_cases hl : opts.filesWithMatches = true
    · rw [if_pos hl]
      by_cases he : (dedupKeepFirst (ms.map (fun m => m.file))).isEmpty = true
      · rw [if_pos he]
        exact Or.inl rfl
      · rw [if_neg he]
        refine Or.inr ⟨dedupKeepFirst (ms.map (fun m => m.file)), ?_, ?_, rfl⟩
        · intro hnil
          rw [hnil] at he
          exact he rfl
        · intro s hs
          have hs2 : s ∈ ms.map (fun m => m.file) :=
            mem_dedupKeepFirstAux _ _ _ hs
          rcases List.mem_map.mp hs2 with ⟨m, hm, hfile⟩
          exact hfile ▸ (h m hm).1
    · rw [if_neg hl]
      by_cases hL : opts.filesWithoutMatch = true
      · rw [if_pos hL]
        refine Or.inl ?_
        dsimp only
        split <;> rfl
      · rw [if_neg hL]
        by_cases hc : opts.count = true
        · rw [if_pos hc]
          by_cases he : (buildCounts ms).isEmpty = true
          · rw [if_pos he]
            exact Or.inr ⟨["0"], by decide, by decide, rfl⟩
          · rw [if_neg he]
            refine Or.inr ⟨_, ?_, ?_, rfl⟩
            · intro hnil
              rcases List.map_eq_nil_iff.mp hnil with h2
              rw [h2] at he
              exact he rfl
            · intro s hs
              rcases List.mem_map.mp hs with ⟨kv, hkv, hfmt⟩
              have hk : kv.1 ∈ ms.map (fun m => m.file) :=
                buildCounts_key_mem ms kv hkv
              rcases List.mem_map.mp hk with ⟨m, hm, hfile⟩
              have hfn : noNl kv.1 := hfile ▸ (h m hm).1
              rw [← hfmt]
              by_cases hsf : ((multiFile && !opts.noFilename) && kv.1 ≠ "") = true
              · rw [if_pos hsf]
                exact noNl_append _ _ (noNl_append _ _ hfn (by decide))
                  (natToString_noNl _)
              · rw [if_neg hsf]
                exact natToString_noNl _
        · rw [if_neg hc]
          by_cases hme : ms.isEmpty = true
          · rw [if_pos hme]
            exact Or.inl rfl
          · rw [if_neg hme]
            refine Or.inr ⟨_, ?_, ?_, rfl⟩
            · intro hnil
              rcases List.map_eq_nil_iff.mp hnil with h2
              rw [h2] at hme
              exact hme rfl
            · intro s hs
              rcases List.mem_map.mp hs with ⟨m, hm, hfmt⟩
              rcases h m hm with ⟨hf, hline, hmt⟩
              rw [← hfmt]
              refine noNl_append _ _ (noNl_append _ _ ?_ ?_) ?_
              · by_cases hsf : ((multiFile && !opts.noFilename) && m.file ≠ "") = true
                · rw [if_pos hsf]
                  exact noNl_append _ _ hf (by decide)
                · rw [if_neg hsf]
                  decide
              · by_cases hln : opts.lineNumber = true
                · rw [if_pos hln]
                  exact noNl_append _ _ (natToString_noNl _) (by decide)
                · rw [if_neg hln]
                  decide
              · by_cases ho : opts.onlyMatching = true
                · rw [if_pos ho]
                  rcases hmx : m.matchText with _ | s2
                  · decide
                  · exact hmt s2 hmx
                · rw [if_neg ho]
                  exact hline

/-- Witness for C9: one plain record renders as one line with a single
trailing newline. -/
theorem c9_witness :
    (∀ m ∈ ([⟨"f", 1, "hello", none⟩] : List MatchLine), noNl m.file ∧ noNl m.line ∧
      ∀ s, m.matchText = some s → noNl s) ∧
    ((formatOutput [⟨"f", 1, "hello", none⟩] GrepArgs.init false false).stdout = "" ∨
    ∃ L, L ≠ [] ∧ (∀ s ∈ L, noNl s) ∧
      (formatOutput [⟨"f", 1, "hello", none⟩] GrepArgs.init false false).stdout =
        joinWith "\n" L ++ "\n") :=
  ⟨by decide, c9_trailing_newline [⟨"f", 1, "hello", none⟩] GrepArgs.init false false
    (by decide)⟩

-- ── Claims C2 and C10: remote-failure behavior ──────────────────────

/-- Helper: `formatOutput` never reads its `hadError` argument. -/
theorem formatOutput_hadError_irrel (ms : List MatchLine) (opts : GrepArgs)
    (mf a b : Bool) : formatOutput ms opts mf a = formatOutput ms opts mf b := rfl

/-- Helper: the match list computed by the local loop does not depend on the
incoming `hadError` flag. -/
theorem localLoop_fst_he (fuel : Nat) (fs : FsLike) (re : ExecRegex)
    (opts : GrepArgs) :
    ∀ (paths : List String) (acc : List MatchLine) (he1 he2 : Bool),
      (localLoop fuel fs re opts paths acc he1).1 =
        (localLoop fuel fs re opts paths acc he2).1 := by
  intro paths
  induction paths with
  | nil =>
    intro acc he1 he2
    rfl
  | cons q rest ih =>
    intro acc he1 he2
    unfold localLoop
    rcases hq : localGrep fuel fs q re opts with e | ms
    · exact ih acc _ _
    · exact ih (acc ++ ms) _ _

/-- Helper for the fatal path of C2/C10: when the classification leaves a
single remote-eligible path and no local path, and the remote call for it
throws, `execute` returns immediately with exit code 2 and the message on
stderr. -/
theorem executeGrep_sole_remote_error (engine : Engine) (fuel : Nat)
    (vfs : Vfs) (mountPoint : String) (args : List String)
    (ctx : CommandContext) (opts : GrepArgs) (re : ExecRegex) (p msg : String)
    (hparse : parseGrepArgs args = .ok opts)
    (hpat : opts.patterns.isEmpty = false)
    (hre : engine (buildRegexSrc (joinWith "|" opts.patterns) opts)
      opts.ignoreCase = some re)
    (hfiles : opts.files.isEmpty = false)
    (hclass : classifyPaths (normalizeMount mountPoint)
      (resolveFiles ctx.fs ctx.cwd opts.files) = ([p], []))
    (hgate : isServerSideCompatible opts = true)
    (hfail : vfs (buildServerPattern (joinWith "|" opts.patterns) opts)
      (vfsPathOf (normalizeMount mountPoint) p) = .error msg) :
    executeGrep engine fuel vfs mountPoint args ctx =
      ⟨"", "grep: " ++ msg ++ "\n", 2⟩ := by
  unfold executeGrep
  rw [hparse]
  simp only [hpat, Bool.false_eq_true, if_false, hre, hfiles, hclass, hgate,
    serverLoop, hfail, List.isEmpty_nil, List.length_cons, List.length_nil,
    List.isEmpty_cons, Bool.and_true, Bool.not_false]
  rfl

/-- Helper for the graceful path of C2: with other targets present (so the
fatal sole-target test is false), replacing a throwing remote path by a path
returning no matches yields the same match list — an errored remote file
contributes exactly zero matches — with only the (unused) `hadError` flag
possibly differing. -/
theorem serverLoop_patched (vfs vfs2 : Vfs) (sp mount : String)
    (re : ExecRegex) (opts : GrepArgs) (lpsEmpty : Bool) (opsLen : Nat)
    (vp msg : String)
    (hcond : (lpsEmpty && decide (opsLen = 1)) = false)
    (hfail : vfs sp vp = .error msg)
    (hat : vfs2 sp vp = .ok [])
    (hoff : ∀ path, path ≠ vp → vfs2 sp path = vfs sp path) :
    ∀ (ops : List String) (acc : List MatchLine) (he1 he2 : Bool),
      ∃ acc2 he1f he2f,
        serverLoop vfs sp mount re opts lpsEmpty opsLen ops acc he1 =
          .ok (acc2, he1f) ∧
        serverLoop vfs2 sp mount re opts lpsEmpty opsLen ops acc he2 =
          .ok (acc2, he2f) := by
  intro ops
  induction ops with
  | nil =>
    intro acc he1 he2
    exact ⟨acc, he1, he2, rfl, rfl⟩
  | cons q rest ih =>
    intro acc he1 he2
    by_cases hq : vfsPathOf mount q = vp
    · unfold serverLoop
      rw [hq, hfail, hat]
      simp only [hcond, Bool.false_eq_true, if_false, convertServerMatches,
        List.append_nil]
      exact ih acc _ he2
    · unfold serverLoop
      rw [hoff _ hq]
      rcases hv : vfs sp (vfsPathOf mount q) with m2 | ms
      · simp only [hcond, Bool.false_eq_true, if_false]
        exact ih acc _ _
      · exact ih (acc ++ convertServerMatches mount re opts ms) he1 he2

/-- C2: if the remote grep call for a remote-eligible path throws and that
path is the only requested target (no other local or remote paths), the
command returns exit code 2 with the message on stderr and empty stdout;
otherwise the failing path contributes zero matches (the outcome equals that
of an oracle returning no matches for it) and the command continues with the
remaining paths. -/
theorem c2_remote_failure (engine : Engine) (fuel : Nat) (vfs vfs2 : Vfs)
    (mountPoint : String) (args : List String) (ctx : CommandContext)
    (opts : GrepArgs) (re : ExecRegex) (p msg : String) (ops lps : List String)
    (hparse : parseGrepArgs args = .ok opts)
    (hpat : opts.patterns.isEmpty = false)
    (hre : engine (buildRegexSrc (joinWith "|" opts.patterns) opts)
      opts.ignoreCase = some re)
    (hfiles : opts.files.isEmpty = false)
    (hclass : classifyPaths (normalizeMount mountPoint)
      (resolveFiles ctx.fs ctx.cwd opts.files) = (ops, lps))
    (hgate : isServerSideCompatible opts = true)
    (hp : p ∈ ops)
    (hfail : vfs (buildServerPattern (joinWith "|" opts.patterns) opts)
      (vfsPathOf (normalizeMount mountPoint) p) = .error msg)
    (hat : vfs2 (buildServerPattern (joinWith "|" opts.patterns) opts)
      (vfsPathOf (normalizeMount mountPoint) p) = .ok [])
    (hoff : ∀ path, path ≠ vfsPathOf (normalizeMount mountPoint) p →
      vfs2 (buildServerPattern (joinWith "|" opts.patterns) opts) path =
        vfs (buildServerPattern (joinWith "|" opts.patterns) opts) path) :
    if (lps.isEmpty && decide (ops.length = 1)) = true then
      executeGrep engine fuel vfs mountPoint args ctx =
        ⟨"", "grep: " ++ msg ++ "\n", 2⟩
    else
      executeGrep engine fuel vfs mountPoint args ctx =
        executeGrep engine fuel vfs2 mountPoint args ctx := by
  by_cases hcond : (lps.isEmpty && decide (ops.length = 1)) = true
  · rw [if_pos hcond]
    have h12 := hcond
    rw [Bool.and_eq_true] at h12
    obtain ⟨h1, h2⟩ := h12
    have hlps : lps = [] := by
      rcases lps with _ | ⟨x, xs⟩
      · rfl
      · exact absurd h1 (by simp)
    have hlen : ops.length = 1 := of_decide_eq_true h2
    have hops : ops = [p] := by
      rcases ops with _ | ⟨a, rest⟩
      · exact absurd hp (List.not_mem_nil _)
      · rcases rest with _ | ⟨b, rest2⟩
        · rw [List.mem_singleton.mp hp]
        · exact absurd hlen (by simp)
    rw [hops, hlps] at hclass
    exact executeGrep_sole_remote_error engine fuel vfs mountPoint args ctx
      opts re p msg hparse hpat hre hfiles hclass hgate hfail
  · rw [if_neg hcond]
    have hcond2 : (lps.isEmpty && decide (ops.length = 1)) = false := by
      rcases hc : (lps.isEmpty && decide (ops.length = 1)) with _ | _
      · rfl
      · exact absurd hc hcond
    have hne : ops.isEmpty = false := by
      rcases ops with _ | _
      · exact absurd hp (List.not_mem_nil _)
      · rfl
    unfold executeGrep
    rw [hparse]
    simp only [hpat, Bool.false_eq_true, if_false, hre, hfiles, hclass, hgate,
      Bool.and_true, hne, Bool.not_false, if_true]
    obtain ⟨acc2, he1f, he2f, hs1, hs2⟩ :=
      serverLoop_patched vfs vfs2
        (buildServerPattern (joinWith "|" opts.patterns) opts)
        (normalizeMount mountPoint) re opts lps.isEmpty ops.length
        (vfsPathOf (normalizeMount mountPoint) p) msg hcond2 hfail hat hoff
        ops [] false false
    rw [hs1, hs2]
    dsimp only
    rw [localLoop_fst_he fuel ctx.fs re opts lps acc2 he1f he2f]
    exact formatOutput_hadError_irrel _ _ _ _ _

/-- Witness for C2 (sole-target fatal branch) at a concrete invocation. -/
theorem c2_witness :
    (if ((([] : List String)).isEmpty && decide ((["/data/f"] : List String).length = 1)) = true then
      executeGrep litEngine 5 vfsErrOnF "/data" ["x", "/data/f"] ctxNoStdin =
        ⟨"", "grep: " ++ "boom" ++ "\n", 2⟩
    else
      executeGrep litEngine 5 vfsErrOnF "/data" ["x", "/data/f"] ctxNoStdin =
        executeGrep litEngine 5 vfsOkEmpty "/data" ["x", "/data/f"] ctxNoStdin) :=
  c2_remote_failure litEngine 5 vfsErrOnF vfsOkEmpty "/data" ["x", "/data/f"]
    ctxNoStdin { GrepArgs.init with patterns := ["x"], files := ["/data/f"] }
    (litRegex "x") "/data/f" "boom" ["/data/f"] []
    (by decide) rfl rfl rfl (by decide) rfl (by decide) (by decide) rfl
    (by
      intro path hpath
      have hp2 : path ≠ "/f" := by
        intro he
        exact hpath (by rw [he]; decide)
      show vfsOkEmpty _ path = vfsErrOnF _ path
      unfold vfsOkEmpty vfsErrOnF
      rw [if_neg hp2])

-- ── Claim C10 ────────────────────────────────────────────────────────

/-- C10: even with `quiet` set, a failing remote call on the sole requested
target still returns exit code 2 with the message on stderr — the fatal
backend-error path is not guarded by the quiet flag. -/
theorem c10_quiet_fatal_backend_error (engine : Engine) (fuel : Nat)
    (vfs : Vfs) (mountPoint : String) (args : List String)
    (ctx : CommandContext) (opts : GrepArgs) (re : ExecRegex) (p msg : String)
    (hquiet : opts.quiet = true)
    (hparse : parseGrepArgs args = .ok opts)
    (hpat : opts.patterns.isEmpty = false)
    (hre : engine (buildRegexSrc (joinWith "|" opts.patterns) opts)
      opts.ignoreCase = some re)
    (hfiles : opts.files.isEmpty = false)
    (hclass : classifyPaths (normalizeMount mountPoint)
      (resolveFiles ctx.fs ctx.cwd opts.files) = ([p], []))
    (hgate : isServerSideCompatible opts = true)
    (hfail : vfs (buildServerPattern (joinWith "|" opts.patterns) opts)
      (vfsPathOf (normalizeMount mountPoint) p) = .error msg) :
    executeGrep engine fuel vfs mountPoint args ctx =
      ⟨"", "grep: " ++ msg ++ "\n", 2⟩ :=
  executeGrep_sole_remote_error engine fuel vfs mountPoint args ctx opts re
    p msg hparse hpat hre hfiles hclass hgate hfail

/-- Witness for C10: `grep -q` on a sole failing remote target exits 2 with
the error on stderr. -/
theorem c10_witness :
    executeGrep litEngine 5 vfsErrOnF "/data" ["-q", "x", "/data/f"] ctxNoStdin =
      ⟨"", "grep: " ++ "boom" ++ "\n", 2⟩ :=
  c10_quiet_fatal_backend_error litEngine 5 vfsErrOnF "/data"
    ["-q", "x", "/data/f"] ctxNoStdin
    { GrepArgs.init with patterns := ["x"], files := ["/data/f"], quiet := true }
    (litRegex "x") "/data/f" "boom" rfl (by decide) rfl rfl rfl (by decide) rfl
    (by decide)

end GrepSpec
